import Mathlib

/-!
Shallow embedding of the SMO package: the facade class `SMO` from
`src/smo/api.py`, together with models of the core modules it imports
(`smo.smo` providing `smo`, `smo_rv`, `rv_continuous`, and `smo.background`
providing `bg_mask`, `bg_rv`).  Arrays are embedded as flattened lists of
rationals paired with a shape; a masked array is such an array paired with a
boolean exclusion mask of the same extent.
-/

/-- A plain n-dimensional numeric array: a shape and flattened data. -/
structure NDArray where
  shape : List Nat
  data : List ℚ
deriving DecidableEq

/-- A Masked Field: data plus a boolean exclusion mask (`true` = excluded). -/
structure MaskedField where
  shape : List Nat
  data : List ℚ
  mask : List Bool
deriving DecidableEq

/-- An input image: either a plain array or a masked array, mirroring the
`np.ndarray | np.ma.MaskedArray` union accepted by the facade. -/
inductive Image where
  | plain (a : NDArray)
  | masked (f : MaskedField)
deriving DecidableEq

/-- `ndim` of an input image, as numpy reports it: the rank of its shape. -/
def Image.ndim : Image → Nat
  | .plain a => a.shape.length
  | .masked f => f.shape.length

/-- Modelled from the spec: the continuous distribution built from a histogram
of observed samples (§4.2, §9: a simple struct over stored sample data, with
`cdf` and `ppf` as pure query functions).  Models `rv_continuous`
(scipy's `rv_histogram`) as re-exported by the missing `smo.smo` module. -/
structure rv_continuous where
  samples : List ℚ
deriving DecidableEq

/-- Empirical cumulative distribution: the fraction of samples at or below `x`. -/
def rv_continuous.cdf (h : rv_continuous) (x : ℚ) : ℚ :=
  ((h.samples.countP fun s => decide (s ≤ x)) : ℚ) / (h.samples.length : ℚ)

/-- Empirical quantile function: the least sample whose cumulative probability
reaches `p`, falling back to the largest sample when `p` exceeds every
cumulative value. -/
def rv_continuous.ppf (h : rv_continuous) (p : ℚ) : ℚ :=
  match (h.samples.filter fun s => decide (p ≤ h.cdf s)).min? with
  | some m => m
  | none => (h.samples.max?).getD 0

namespace smoCore

/-- Modelled from the spec: the windowed-averaging primitive of the SMO
Transform (§4.1).  At each position of the flattened field it takes the mean
of the values within distance `w` whose mask entry is `false`; masked values
are excluded from every window.  An unmasked position always lies inside its
own window, so the mean there is over a nonempty index set. -/
def windowAvg (data : List ℚ) (mask : List Bool) (w : Nat) : List ℚ :=
  (List.range data.length).map fun i =>
    let idxs := (List.range data.length).filter fun j =>
      decide (j ≤ i + w) && decide (i ≤ j + w) && (mask.getD j true == false)
    ((idxs.map fun j => data.getD j 0).sum) / (idxs.length : ℚ)

/-- Modelled from the spec: the SMO Transform `smo` of the missing `smo.smo`
module (§4.1): a smoothing pass at scale `sigma` followed by a window-local
aggregation at scale `size`, shape-preserving and propagating the input mask
unchanged.  The precise local statistic is left open by the design (§9); this
model composes two mask-respecting windowed averages, which satisfies the
stated contract. -/
def smo (f : MaskedField) (sigma : ℚ) (size : Nat) : MaskedField :=
  let smoothed := windowAvg f.data f.mask (Int.toNat ⌈sigma⌉)
  ⟨f.shape, windowAvg smoothed f.mask size, f.mask⟩

/-- Modelled from the spec: a deterministic pseudo-random noise field of the
given shape (§4.2): one value per position, a pure function of the seed and
the position index, standing in for the seeded random source. -/
def noiseField (shape : List Nat) (seed : Nat) : List ℚ :=
  (List.range shape.prod).map fun i =>
    ((((seed + 1) * (i + 7) * 2654435761) % 65536 : Nat) : ℚ) / 65536

/-- Modelled from the spec: the Null-Distribution Calibrator `smo_rv` of the
missing `smo.smo` module (§4.2): draw one noise field of shape `shape` from
the random source (defaulting to the documented seed 42 when none is given),
apply the SMO Transform to it with no position masked, and build the
histogram distribution of the resulting values. -/
def smo_rv (shape : List Nat) (sigma : ℚ) (size : Nat)
    (random_state : Option Nat) : rv_continuous :=
  let noise := noiseField shape (random_state.getD 42)
  let field : MaskedField := ⟨shape, noise, List.replicate noise.length false⟩
  ⟨(smo field sigma size).data⟩

end smoCore

namespace background

/-- Modelled from the spec: the core `bg_mask` of the missing `smo.background`
module (§4.3): keep the input data and unmask exactly the positions that are
not already excluded and whose SMO value falls at or below the cutoff
`threshold` (a one-sided test, low SMO means background). -/
def bg_mask (image : MaskedField) (sigma : ℚ) (size : Nat)
    (threshold : ℚ) : MaskedField :=
  let s := smoCore.smo image sigma size
  ⟨image.shape, image.data,
   List.zipWith (fun m v => m || decide (threshold < v)) image.mask s.data⟩

/-- Modelled from the spec: the core `bg_rv` of the missing `smo.background`
module (§4.3): a call-scoped histogram distribution fit to the pixel
intensities restricted to the positions that pass the background-mask test. -/
def bg_rv (image : MaskedField) (sigma : ℚ) (size : Nat)
    (threshold : ℚ) : rv_continuous :=
  let b := bg_mask image sigma size threshold
  ⟨(List.zip b.data b.mask).filterMap fun p =>
      if p.2 = false then some p.1 else none⟩

end background

/-- Error conditions raised by the facade, mirroring `src/smo/api.py`:
the dimensionality-mismatch `ValueError` of `_check_image` (which reports the
input's rank and the configured rank), and numpy's error on taking the
maximum of an empty array. -/
inductive SMOError where
  | dimensionMismatch (got expected : Nat)
  | emptyImage
deriving DecidableEq

/-- The facade object of `src/smo/api.py`: scale parameters, configured rank,
and the Null Distribution built once at construction. -/
structure SMO where
  sigma : ℚ
  size : Nat
  ndim : Nat
  smo_rv : rv_continuous
deriving DecidableEq

/-- `SMO.__init__` (src/smo/api.py lines 10-37): store `sigma` and `size`, set
`ndim` from the calibration shape, and build the Null Distribution once. -/
def SMO.make (sigma : ℚ) (size : Nat) (shape : List Nat)
    (random_state : Option Nat) : SMO :=
  ⟨sigma, size, shape.length, smoCore.smo_rv shape sigma size random_state⟩

/-- `SMO._check_image` (src/smo/api.py lines 39-54): reject an input whose
rank differs from the configured rank; pass a masked array through unchanged;
for a plain array, mask every pixel at or above the array's maximum. -/
def SMO._check_image (s : SMO) (image : Image) : Except SMOError MaskedField :=
  if image.ndim ≠ s.ndim then
    .error (.dimensionMismatch image.ndim s.ndim)
  else
    match image with
    | .masked f => .ok f
    | .plain a =>
      match a.data.max? with
      | none => .error .emptyImage
      | some saturation =>
          .ok ⟨a.shape, a.data, a.data.map fun x => decide (saturation ≤ x)⟩

/-- `SMO.smo_image` (src/smo/api.py lines 56-70): check the image, then apply
the SMO Transform with the stored scale parameters. -/
def SMO.smo_image (s : SMO) (image : Image) : Except SMOError MaskedField :=
  match s._check_image image with
  | .error e => .error e
  | .ok f => .ok (smoCore.smo f s.sigma s.size)

/-- `SMO.smo_probability` (src/smo/api.py lines 71-87): apply the Null
Distribution's CDF elementwise to the SMO image's data, and return it with
the SMO image's mask. -/
def SMO.smo_probability (s : SMO) (image : Image) : Except SMOError MaskedField :=
  match s.smo_image image with
  | .error e => .error e
  | .ok f => .ok ⟨f.shape, f.data.map s.smo_rv.cdf, f.mask⟩

/-- `SMO.bg_mask` (src/smo/api.py lines 89-113): check the image, convert the
threshold probability to an SMO-value cutoff via the Null Distribution's
`ppf`, and call the core `bg_mask` with that cutoff. -/
def SMO.bg_mask (s : SMO) (image : Image) (threshold : ℚ) :
    Except SMOError MaskedField :=
  match s._check_image image with
  | .error e => .error e
  | .ok f => .ok (background.bg_mask f s.sigma s.size (s.smo_rv.ppf threshold))

/-- `SMO.bg_rv` (src/smo/api.py lines 115-141): check the image, convert the
threshold probability to an SMO-value cutoff via the Null Distribution's
`ppf`, and call the core `bg_rv` with that cutoff. -/
def SMO.bg_rv (s : SMO) (image : Image) (threshold : ℚ) :
    Except SMOError rv_continuous :=
  match s._check_image image with
  | .error e => .error e
  | .ok f => .ok (background.bg_rv f s.sigma s.size (s.smo_rv.ppf threshold))

/-- `SMO.bg_probability` (src/smo/api.py lines 143-165): check the image, then
apply the CDF of the call-scoped background distribution `bg_rv` (called on
the already-checked masked field) elementwise to the intensities, returning
the checked field's mask. -/
def SMO.bg_probability (s : SMO) (image : Image) (threshold : ℚ) :
    Except SMOError MaskedField :=
  match s._check_image image with
  | .error e => .error e
  | .ok f =>
    match s.bg_rv (.masked f) threshold with
    | .error e => .error e
    | .ok rv => .ok ⟨f.shape, f.data.map rv.cdf, f.mask⟩

/-- State-transformer view of `SMO.smo_image`: the method body of
src/smo/api.py lines 56-70 contains no assignment to `self`, so its
translation returns the object state alongside the result. -/
def SMO.smo_imageRun (s : SMO) (image : Image) :
    Except SMOError MaskedField × SMO :=
  (s.smo_image image, s)

/-- State-transformer view of `SMO.smo_probability` (no assignment to `self`
occurs in src/smo/api.py lines 71-87). -/
def SMO.smo_probabilityRun (s : SMO) (image : Image) :
    Except SMOError MaskedField × SMO :=
  (s.smo_probability image, s)

/-- State-transformer view of `SMO.bg_mask` (no assignment to `self` occurs
in src/smo/api.py lines 89-113). -/
def SMO.bg_maskRun (s : SMO) (image : Image) (threshold : ℚ) :
    Except SMOError MaskedField × SMO :=
  (s.bg_mask image threshold, s)

/-- State-transformer view of `SMO.bg_rv` (no assignment to `self` occurs in
src/smo/api.py lines 115-141). -/
def SMO.bg_rvRun (s : SMO) (image : Image) (threshold : ℚ) :
    Except SMOError rv_continuous × SMO :=
  (s.bg_rv image threshold, s)

/-- State-transformer view of `SMO.bg_probability` (no assignment to `self`
occurs in src/smo/api.py lines 143-165). -/
def SMO.bg_probabilityRun (s : SMO) (image : Image) (threshold : ℚ) :
    Except SMOError MaskedField × SMO :=
  (s.bg_probability image threshold, s)

/-- Observer: the number of background (unmasked) pixels of a classification
result; an error result classifies no pixel as background. -/
def bgFalseCount : Except SMOError MaskedField → Nat
  | .ok m => m.mask.count false
  | .error _ => 0

/-- Observer: the mask entry at position `i` of a classification result; out
of range or on error, the position counts as excluded. -/
def maskAt : Except SMOError MaskedField → Nat → Bool
  | .ok m, i => m.mask.getD i true
  | .error _, _ => true

/-! Helper lemmas about list extrema and the monotone structure of the
background test. -/

/-- Every member of a list is at most the list's maximum. -/
theorem le_of_mem_max (l : List ℚ) (m x : ℚ) (hm : l.max? = some m)
    (hx : x ∈ l) : x ≤ m :=
  (List.max?_le_iff (fun _ _ _ => max_le_iff) hm).mp le_rfl x hx

/-- The list's minimum is at most every member. -/
theorem min_le_of_mem (l : List ℚ) (m x : ℚ) (hm : l.min? = some m)
    (hx : x ∈ l) : m ≤ x :=
  (List.le_min?_iff (fun _ _ _ => le_min_iff) hm).mp le_rfl x hx

/-- The empirical quantile function is monotone in the probability. -/
theorem rv_continuous.ppf_mono (h : rv_continuous) {p q : ℚ} (hpq : p ≤ q) :
    h.ppf p ≤ h.ppf q := by
  unfold rv_continuous.ppf
  have hsub : ∀ x ∈ h.samples.filter fun s => decide (q ≤ h.cdf s),
      x ∈ h.samples.filter fun s => decide (p ≤ h.cdf s) := by
    intro x hx
    obtain ⟨hxm, hxq⟩ := List.mem_filter.mp hx
    exact List.mem_filter.mpr ⟨hxm, by
      simp only [decide_eq_true_eq] at hxq ⊢
      exact le_trans hpq hxq⟩
  cases hq : (h.samples.filter fun s => decide (q ≤ h.cdf s)).min? with
  | some mq =>
      have hmq : mq ∈ h.samples.filter fun s => decide (p ≤ h.cdf s) :=
        hsub mq (List.min?_mem min_choice hq)
      cases hp : (h.samples.filter fun s => decide (p ≤ h.cdf s)).min? with
      | some mp => exact min_le_of_mem _ mp mq hp hmq
      | none =>
          exact absurd (List.min?_eq_none_iff.mp hp ▸ hmq) (List.not_mem_nil mq)
  | none =>
      cases hp : (h.samples.filter fun s => decide (p ≤ h.cdf s)).min? with
      | some mp =>
          have hmem : mp ∈ h.samples :=
            (List.mem_filter.mp (List.min?_mem min_choice hp)).1
          cases hM : h.samples.max? with
          | some M => simpa [hM] using le_of_mem_max h.samples M mp hM hmem
          | none =>
              exact absurd (List.max?_eq_none_iff.mp hM ▸ hmem)
                (List.not_mem_nil mp)
      | none => exact le_rfl

/-- A position unmasked by the background test at a lower cutoff stays
unmasked at any higher cutoff. -/
theorem maskAt_zipWith_mono {a : List Bool} {b : List ℚ} {c1 c2 : ℚ}
    (hc : c1 ≤ c2) (i : Nat)
    (h : (List.zipWith (fun m v => m || decide (c1 < v)) a b).getD i true = false) :
    (List.zipWith (fun m v => m || decide (c2 < v)) a b).getD i true = false := by
  rw [List.getD_eq_getElem?_getD] at h ⊢
  rw [List.getElem?_zipWith] at h ⊢
  cases ha : a[i]? with
  | none => simp [ha] at h
  | some m =>
      cases hb : b[i]? with
      | none => simp [ha, hb] at h
      | some v =>
          simp only [ha, hb, Option.getD_some] at h ⊢
          rcases Bool.or_eq_false_iff.mp h with ⟨hm, hv⟩
          subst hm
          simp only [Bool.false_or] at h ⊢
          simp only [decide_eq_false_iff_not, not_lt] at hv ⊢
          exact le_trans hv hc

/-- Pointwise weakening of a mask predicate never decreases the number of
unmasked positions of the zipped mask. -/
theorem count_false_zipWith_le {g1 g2 : Bool → ℚ → Bool}
    (hg : ∀ m v, g1 m v = false → g2 m v = false) :
    ∀ (a : List Bool) (b : List ℚ),
      (List.zipWith g1 a b).count false ≤ (List.zipWith g2 a b).count false := by
  intro a
  induction a with
  | nil => intro b; simp
  | cons x xs ih =>
      intro b
      cases b with
      | nil => simp
      | cons v vs =>
          simp only [List.zipWith_cons_cons, List.count_cons]
          have hcons := ih vs
          have himp := hg x v
          cases h1 : g1 x v <;> cases h2 : g2 x v
          · simpa using hcons
          · exact absurd (himp h1) (by simp [h2])
          · have hle : List.count false (List.zipWith g1 xs vs) ≤
                List.count false (List.zipWith g2 xs vs) + 1 :=
              Nat.le_succ_of_le hcons
            simpa using hle
          · simpa using hcons

/-- The background-test mask entry is antitone in the cutoff. -/
theorem or_cut_mono {c1 c2 : ℚ} (hc : c1 ≤ c2) (m : Bool) (v : ℚ)
    (h : (m || decide (c1 < v)) = false) : (m || decide (c2 < v)) = false := by
  rcases Bool.or_eq_false_iff.mp h with ⟨hm, hv⟩
  subst hm
  simp only [Bool.false_or, decide_eq_false_iff_not, not_lt] at hv ⊢
  exact le_trans hv hc

/-- C1: for every input field that passes the dimension check,
`smo_probability` returns the Null Distribution's CDF applied elementwise to
the SMO Transform of the field, and the returned masked field carries the
SMO image's mask. -/
theorem C1_smo_probability_cdf_of_smo (s : SMO) (img : Image) (f : MaskedField)
    (hc : s._check_image img = .ok f) :
    s.smo_probability img =
      .ok ⟨(smoCore.smo f s.sigma s.size).shape,
           (smoCore.smo f s.sigma s.size).data.map s.smo_rv.cdf,
           (smoCore.smo f s.sigma s.size).mask⟩ := by
  simp [SMO.smo_probability, SMO.smo_image, hc]

/-- Witness for C1 at a concrete object and masked field. -/
theorem C1_smo_probability_cdf_of_smo_witness :
    (SMO.make 1 1 [1] none)._check_image (.masked ⟨[2], [0, 1], [false, false]⟩) =
      .ok ⟨[2], [0, 1], [false, false]⟩ ∧
    (SMO.make 1 1 [1] none).smo_probability
        (.masked ⟨[2], [0, 1], [false, false]⟩) =
      .ok ⟨(smoCore.smo ⟨[2], [0, 1], [false, false]⟩ 1 1).shape,
           (smoCore.smo ⟨[2], [0, 1], [false, false]⟩ 1 1).data.map
             (SMO.make 1 1 [1] none).smo_rv.cdf,
           (smoCore.smo ⟨[2], [0, 1], [false, false]⟩ 1 1).mask⟩ :=
  ⟨rfl, C1_smo_probability_cdf_of_smo (SMO.make 1 1 [1] none)
      (.masked ⟨[2], [0, 1], [false, false]⟩) ⟨[2], [0, 1], [false, false]⟩ rfl⟩

/-- C2: for a plain array of the configured rank, the facade derives a mask
excluding exactly the pixels at or above the array's maximum (which are
exactly the maximum-valued pixels, since every value is at most the maximum),
keeping the data; an already-masked array of the configured rank is passed
through unchanged. -/
theorem C2_check_image_mask_derivation (s : SMO) (a : NDArray) (m : ℚ)
    (hnd : a.shape.length = s.ndim) (hm : a.data.max? = some m) :
    s._check_image (.plain a) =
      .ok ⟨a.shape, a.data, a.data.map fun x => decide (m ≤ x)⟩ ∧
    (∀ x ∈ a.data, (m ≤ x ↔ x = m)) ∧
    (∀ g : MaskedField, g.shape.length = s.ndim →
      s._check_image (.masked g) = .ok g) := by
  refine ⟨?_, ?_, ?_⟩
  · simp [SMO._check_image, Image.ndim, hnd, hm]
  · intro x hx
    constructor
    · intro hle
      exact le_antisymm (le_of_mem_max a.data m x hm hx) hle
    · intro he
      exact he ▸ le_rfl
  · intro g hg
    simp [SMO._check_image, Image.ndim, hg]

/-- Witness for C2 at a concrete plain array with maximum 2. -/
theorem C2_check_image_mask_derivation_witness :
    (SMO.make 1 1 [1] none)._check_image (.plain ⟨[3], [0, 2, 1]⟩) =
      .ok ⟨[3], [0, 2, 1], ([0, 2, 1] : List ℚ).map fun x => decide ((2:ℚ) ≤ x)⟩ :=
  (C2_check_image_mask_derivation (SMO.make 1 1 [1] none) ⟨[3], [0, 2, 1]⟩ 2 rfl
    (by simp [List.max?, List.foldl])).1

/-- C3: on a rank mismatch, each of the five facade operations returns the
dimensionality-mismatch error and no partial result. -/
theorem C3_dimension_mismatch_raises (s : SMO) (img : Image) (t : ℚ)
    (hnd : img.ndim ≠ s.ndim) :
    s.smo_image img = .error (.dimensionMismatch img.ndim s.ndim) ∧
    s.smo_probability img = .error (.dimensionMismatch img.ndim s.ndim) ∧
    s.bg_mask img t = .error (.dimensionMismatch img.ndim s.ndim) ∧
    s.bg_rv img t = .error (.dimensionMismatch img.ndim s.ndim) ∧
    s.bg_probability img t = .error (.dimensionMismatch img.ndim s.ndim) := by
  have hc : s._check_image img = .error (.dimensionMismatch img.ndim s.ndim) := by
    simp [SMO._check_image, hnd]
  refine ⟨?_, ?_, ?_, ?_, ?_⟩ <;>
    simp [SMO.smo_image, SMO.smo_probability, SMO.bg_mask, SMO.bg_rv,
      SMO.bg_probability, hc]

/-- Witness for C3: a rank-2 image against a rank-1 facade. -/
theorem C3_dimension_mismatch_raises_witness :
    (Image.masked ⟨[1, 1], [0], [false]⟩).ndim ≠ (SMO.make 1 1 [1] none).ndim ∧
    (SMO.make 1 1 [1] none).smo_image (.masked ⟨[1, 1], [0], [false]⟩) =
      .error (.dimensionMismatch 2 1) :=
  ⟨by decide,
   (C3_dimension_mismatch_raises (SMO.make 1 1 [1] none)
      (.masked ⟨[1, 1], [0], [false]⟩) 0 (by decide)).1⟩

/-- C4: `bg_mask` and `bg_rv` convert the threshold probability to an
SMO-value cutoff via the Null Distribution's quantile function and pass that
cutoff value to the core background test. -/
theorem C4_threshold_ppf_conversion (s : SMO) (img : Image) (t : ℚ)
    (f : MaskedField) (hc : s._check_image img = .ok f) :
    s.bg_mask img t = .ok (background.bg_mask f s.sigma s.size (s.smo_rv.ppf t)) ∧
    s.bg_rv img t = .ok (background.bg_rv f s.sigma s.size (s.smo_rv.ppf t)) := by
  constructor <;> simp [SMO.bg_mask, SMO.bg_rv, hc]

/-- Witness for C4 at a concrete object and masked field. -/
theorem C4_threshold_ppf_conversion_witness :
    (SMO.make 1 1 [1] none)._check_image (.masked ⟨[2], [0, 1], [false, false]⟩) =
      .ok ⟨[2], [0, 1], [false, false]⟩ ∧
    (SMO.make 1 1 [1] none).bg_mask (.masked ⟨[2], [0, 1], [false, false]⟩) 0 =
      .ok (background.bg_mask ⟨[2], [0, 1], [false, false]⟩
        (SMO.make 1 1 [1] none).sigma (SMO.make 1 1 [1] none).size
        ((SMO.make 1 1 [1] none).smo_rv.ppf 0)) :=
  ⟨rfl, (C4_threshold_ppf_conversion (SMO.make 1 1 [1] none)
      (.masked ⟨[2], [0, 1], [false, false]⟩) 0
      ⟨[2], [0, 1], [false, false]⟩ rfl).1⟩

/-- C5: `bg_probability` returns the CDF of the call-scoped background
distribution applied elementwise to the input intensities, and the output
carries the input field's mask verbatim. -/
theorem C5_bg_probability_cdf_shares_mask (s : SMO) (f : MaskedField) (t : ℚ)
    (hnd : f.shape.length = s.ndim) :
    s.bg_probability (.masked f) t =
      .ok ⟨f.shape,
           f.data.map (background.bg_rv f s.sigma s.size (s.smo_rv.ppf t)).cdf,
           f.mask⟩ := by
  have hc : s._check_image (.masked f) = .ok f := by
    simp [SMO._check_image, Image.ndim, hnd]
  simp [SMO.bg_probability, SMO.bg_rv, hc]

/-- Witness for C5 at a concrete object and masked field. -/
theorem C5_bg_probability_cdf_shares_mask_witness :
    ((⟨[2], [0, 1], [false, true]⟩ : MaskedField).shape.length =
      (SMO.make 1 1 [1] none).ndim) ∧
    (SMO.make 1 1 [1] none).bg_probability
        (.masked ⟨[2], [0, 1], [false, true]⟩) 0 =
      .ok ⟨[2],
           ([0, 1] : List ℚ).map
             (background.bg_rv ⟨[2], [0, 1], [false, true]⟩
               (SMO.make 1 1 [1] none).sigma (SMO.make 1 1 [1] none).size
               ((SMO.make 1 1 [1] none).smo_rv.ppf 0)).cdf,
           [false, true]⟩ :=
  ⟨rfl, C5_bg_probability_cdf_shares_mask (SMO.make 1 1 [1] none)
      ⟨[2], [0, 1], [false, true]⟩ 0 rfl⟩

/-- C6: construction without an explicit random source uses the documented
default seed 42, so two objects built from identical (sigma, size, shape) and
identical random-source state have Null Distributions agreeing at every cdf
and ppf query point. -/
theorem C6_null_distribution_deterministic (sigma : ℚ) (size : Nat)
    (shape : List Nat) (q p : ℚ) :
    (SMO.make sigma size shape none).smo_rv.cdf q =
      (SMO.make sigma size shape (some 42)).smo_rv.cdf q ∧
    (SMO.make sigma size shape none).smo_rv.ppf p =
      (SMO.make sigma size shape (some 42)).smo_rv.ppf p := ⟨rfl, rfl⟩

/-- C7: the calibration state (sigma, size, ndim, Null Distribution) is set
once by the constructor, and every operation returns the object state
unchanged, whether it succeeds or errors. -/
theorem C7_calibration_state_immutable (sigma : ℚ) (size : Nat)
    (shape : List Nat) (rs : Option Nat) (s : SMO) (img : Image) (t : ℚ) :
    (SMO.make sigma size shape rs).sigma = sigma ∧
    (SMO.make sigma size shape rs).size = size ∧
    (SMO.make sigma size shape rs).ndim = shape.length ∧
    (SMO.make sigma size shape rs).smo_rv = smoCore.smo_rv shape sigma size rs ∧
    (s.smo_imageRun img).2 = s ∧
    (s.smo_probabilityRun img).2 = s ∧
    (s.bg_maskRun img t).2 = s ∧
    (s.bg_rvRun img t).2 = s ∧
    (s.bg_probabilityRun img t).2 = s :=
  ⟨rfl, rfl, rfl, rfl, rfl, rfl, rfl, rfl, rfl⟩

/-- C8: for thresholds p1 ≤ p2, every pixel classified as background by
`bg_mask` at p1 is also classified at p2, and the count of background pixels
never decreases. -/
theorem C8_bg_mask_threshold_monotone (s : SMO) (img : Image) {p1 p2 : ℚ}
    (hp : p1 ≤ p2) :
    (∀ i, maskAt (s.bg_mask img p1) i = false →
      maskAt (s.bg_mask img p2) i = false) ∧
    bgFalseCount (s.bg_mask img p1) ≤ bgFalseCount (s.bg_mask img p2) := by
  cases hc : s._check_image img with
  | error e =>
      have h1 : s.bg_mask img p1 = .error e := by simp [SMO.bg_mask, hc]
      have h2 : s.bg_mask img p2 = .error e := by simp [SMO.bg_mask, hc]
      constructor
      · intro i h
        rw [h1] at h
        exact absurd h (by simp [maskAt])
      · rw [h1, h2]
  | ok f =>
      have hcut : s.smo_rv.ppf p1 ≤ s.smo_rv.ppf p2 :=
        rv_continuous.ppf_mono s.smo_rv hp
      have h1 : s.bg_mask img p1 =
          .ok (background.bg_mask f s.sigma s.size (s.smo_rv.ppf p1)) := by
        simp [SMO.bg_mask, hc]
      have h2 : s.bg_mask img p2 =
          .ok (background.bg_mask f s.sigma s.size (s.smo_rv.ppf p2)) := by
        simp [SMO.bg_mask, hc]
      rw [h1, h2]
      constructor
      · intro i h
        simp only [maskAt, background.bg_mask] at h ⊢
        exact maskAt_zipWith_mono hcut i h
      · simp only [bgFalseCount, background.bg_mask]
        exact count_false_zipWith_le (or_cut_mono hcut) _ _

/-- Witness for C8 at a concrete object, field, and threshold pair 0 ≤ 1. -/
theorem C8_bg_mask_threshold_monotone_witness :
    ((0 : ℚ) ≤ 1) ∧
    bgFalseCount ((SMO.make 1 1 [1] none).bg_mask
        (.masked ⟨[2], [0, 1], [false, false]⟩) 0) ≤
      bgFalseCount ((SMO.make 1 1 [1] none).bg_mask
        (.masked ⟨[2], [0, 1], [false, false]⟩) 1) :=
  ⟨by norm_num,
   (C8_bg_mask_threshold_monotone (SMO.make 1 1 [1] none)
      (.masked ⟨[2], [0, 1], [false, false]⟩) (by norm_num)).2⟩

/-- C9: running `smo_probability` twice in sequence on the same field yields
identical results, and the second run starts from the unchanged state. -/
theorem C9_smo_probability_idempotent (s : SMO) (img : Image) :
    ((s.smo_probabilityRun img).2.smo_probabilityRun img).1 =
      (s.smo_probabilityRun img).1 ∧
    ((s.smo_probabilityRun img).2.smo_probabilityRun img).2 = s :=
  ⟨rfl, rfl⟩

/-- C10: a nonempty plain array of the configured rank whose values are all
equal is handed to the core with every pixel masked. -/
theorem C10_constant_field_fully_masked (s : SMO) (a : NDArray) (c : ℚ)
    (hnd : a.shape.length = s.ndim) (hne : a.data ≠ [])
    (hconst : ∀ x ∈ a.data, x = c) :
    s._check_image (.plain a) =
      .ok ⟨a.shape, a.data, List.replicate a.data.length true⟩ := by
  obtain ⟨m, hm⟩ : ∃ m, a.data.max? = some m := by
    cases he : a.data.max? with
    | none => exact absurd (List.max?_eq_none_iff.mp he) hne
    | some m => exact ⟨m, rfl⟩
  have hmc : m = c := hconst m (List.max?_mem max_choice hm)
  have hmask : (a.data.map fun x => decide (m ≤ x)) =
      List.replicate a.data.length true := by
    have hall : ∀ b ∈ a.data.map fun x => decide (m ≤ x), b = true := by
      intro b hb
      obtain ⟨x, hx, hbx⟩ := List.mem_map.mp hb
      subst hbx
      simp [hmc, hconst x hx]
    calc (a.data.map fun x => decide (m ≤ x))
        = List.replicate (a.data.map fun x => decide (m ≤ x)).length true :=
          List.eq_replicate_of_mem hall
      _ = List.replicate a.data.length true := by rw [List.length_map]
  simp [SMO._check_image, Image.ndim, hnd, hm, hmask]

/-- Witness for C10: an all-zero plain array of two pixels is fully masked. -/
theorem C10_constant_field_fully_masked_witness :
    (SMO.make 1 1 [1] none)._check_image (.plain ⟨[2], [0, 0]⟩) =
      .ok ⟨[2], ([0, 0] : List ℚ), List.replicate ([0, 0] : List ℚ).length true⟩ :=
  C10_constant_field_fully_masked (SMO.make 1 1 [1] none) ⟨[2], [0, 0]⟩ 0 rfl
    (by simp) (by intro x hx; simpa using hx)
